import Mathlib

/-!
Shallow embedding of the `place` client modules
`reddit_place/public/static/js/place/canvasse.js` and
`reddit_place/public/static/js/place/utils.js`.

The canvasse module wraps two HTML canvas rasters: the user-visible
display canvas (`el` / `ctx`) and a hidden buffer canvas (`bufferEl` /
`bufferCtx`).  We model each raster as a `Surface`: its `width` and
`height` attributes together with its pixel contents, a total function
from coordinates to RGBA pixels (only coordinates inside the raster are
meaningful; operations never touch the rest).

Canvas platform primitives used by the module are given their standard
semantics:
 - `fillRect` with a fully opaque fill style replaces the covered
   pixels (clipped to the canvas);
 - `clearRect` sets the covered pixels to transparent black;
 - `drawImage` composites the source image over the destination with
   the default `source-over` operator: a fully opaque source pixel
   replaces the destination pixel, a fully transparent one leaves it
   unchanged (for intermediate alphas browsers blend premultiplied
   values with unspecified rounding; we use floor division, and no
   theorem below depends on that branch since every pixel this module
   produces has alpha 0 or 255);
 - `putImageData` writes raw bytes, replacing the covered pixels
   without compositing;
 - writes into a `Uint8ClampedArray` clamp the value to [0, 255] and
   are silently dropped when the index is outside the array.
-/

/-- One RGBA pixel of a canvas raster; each channel is a byte 0..255. -/
structure Pixel where
  r : Nat
  g : Nat
  b : Nat
  a : Nat
deriving DecidableEq, Repr

/-- Fully transparent black, the content of a freshly created or
freshly resized canvas. -/
def Pixel.transparent : Pixel := ⟨0, 0, 0, 0⟩

/-- A dict with red, green and blue color values, as produced by
`parseHexColor`; each color is an int between 0 and 255. -/
structure Color where
  red : Nat
  green : Nat
  blue : Nat
deriving DecidableEq, Repr

/-- The fully opaque pixel showing a color (alpha 255). -/
def Color.toPixel (c : Color) : Pixel := ⟨c.red, c.green, c.blue, 255⟩

/-- Numeric value of one hex digit, case insensitive; `none` when the
character is not a hex digit. -/
def hexDigitVal (c : Char) : Option Nat :=
  if '0' ≤ c ∧ c ≤ '9' then some (c.toNat - '0'.toNat)
  else if 'a' ≤ c ∧ c ≤ 'f' then some (c.toNat - 'a'.toNat + 10)
  else if 'A' ≤ c ∧ c ≤ 'F' then some (c.toNat - 'A'.toNat + 10)
  else none

/-- Accumulate the remaining characters of the longest hex-digit run,
as JavaScript `parseInt(s, 16)` does after the first digit. -/
def parseIntHexAux : List Char → Nat → Nat
  | [], acc => acc
  | c :: cs, acc =>
    match hexDigitVal c with
    | some d => parseIntHexAux cs (acc * 16 + d)
    | none => acc

/-- JavaScript `parseInt(s, 16)` on a character list: `none` models NaN
(no leading hex digit), otherwise the value of the longest hex-digit
prefix. -/
def parseIntHex : List Char → Option Nat
  | [] => none
  | c :: cs =>
    match hexDigitVal c with
    | some d => some (parseIntHexAux cs d)
    | none => none

/-- Embedding of `parseHexColor` from canvasse.js: drop the leading
`#`, parse the rest as hex, and extract the three bytes with shifts and
masks.  When `parseInt` yields NaN the bitwise operators of JavaScript
coerce it to 0, giving black. -/
def parseHexColor (hexColor : String) : Color :=
  match parseIntHex (hexColor.data.drop 1) with
  | some colorVal =>
    { red := colorVal >>> 16 &&& 0xFF
      green := colorVal >>> 8 &&& 0xFF
      blue := colorVal &&& 0xFF }
  | none => { red := 0, green := 0, blue := 0 }

/-- A well-formed css hex color of the form `#RRGGBB`. -/
def isHexColor (s : String) : Bool :=
  match s.data with
  | '#' :: ds => ds.length == 6 && ds.all (fun c => (hexDigitVal c).isSome)
  | _ => false

/-- A css fill color as stored by the canvas: the module only ever
passes `#RRGGBB` strings, which parse to a fully opaque pixel with the
channels of `parseHexColor`. -/
def cssFillPixel (color : String) : Pixel := (parseHexColor color).toPixel

/-- Source-over compositing of a source pixel onto a destination
pixel, as `drawImage` performs it.  Opaque source replaces, transparent
source preserves; the intermediate branch is the premultiplied blend
with floor division (browsers leave its rounding unspecified, and the
canvasse module never produces such pixels). -/
def sourceOver (src dst : Pixel) : Pixel :=
  if src.a = 255 then src
  else if src.a = 0 then dst
  else
    let outA := src.a * 255 + dst.a * (255 - src.a)
    if outA = 0 then Pixel.transparent
    else
      { r := (src.r * src.a * 255 + dst.r * dst.a * (255 - src.a)) / outA
        g := (src.g * src.a * 255 + dst.g * dst.a * (255 - src.a)) / outA
        b := (src.b * src.a * 255 + dst.b * dst.a * (255 - src.a)) / outA
        a := outA / 255 }

/-- One canvas raster: its size attributes and its pixel contents. -/
structure Surface where
  width : Nat
  height : Nat
  pix : Nat → Nat → Pixel

/-- The state of the canvasse module object: the dimensions it
remembers, the display canvas `el`, the hidden buffer canvas
`bufferEl`, and the two dirty flags. -/
structure Canvasse where
  width : Nat
  height : Nat
  el : Surface
  bufferEl : Surface
  isBufferDirty : Bool
  isDisplayDirty : Bool

namespace Canvasse

/-- Embedding of `init(el, width, height)`: record the dimensions, size
the provided display canvas (assigning a canvas `width`/`height`
attribute resets its contents to transparent black), and create the
same-sized hidden buffer canvas.  The function performs no validation
of `width` or `height` and the dirty flags keep the module literal's
initial value `false`. -/
def init (el : Surface) (width height : Nat) : Canvasse :=
  { width := width
    height := height
    el :=
      { el with
        width := width
        height := height
        pix := fun _ _ => Pixel.transparent }
    bufferEl :=
      { width := width
        height := height
        pix := fun _ _ => Pixel.transparent }
    isBufferDirty := false
    isDisplayDirty := false }

/-- Embedding of `drawTileToDisplay(x, y, color)`:
`ctx.fillRect(x, y, 1, 1)` with the parsed fill style, clipped to the
display canvas, then mark the display dirty. -/
def drawTileToDisplay (c : Canvasse) (x y : Nat) (color : String) : Canvasse :=
  { c with
    el :=
      { c.el with
        pix := fun i j =>
          if i = x ∧ j = y ∧ x < c.el.width ∧ y < c.el.height then
            cssFillPixel color
          else c.el.pix i j }
    isDisplayDirty := true }

/-- Embedding of `drawRectToDisplay(x, y, width, height, color)`:
`ctx.fillRect` over the rectangle, clipped to the display canvas, then
mark the display dirty. -/
def drawRectToDisplay (c : Canvasse) (x y w h : Nat) (color : String) : Canvasse :=
  { c with
    el :=
      { c.el with
        pix := fun i j =>
          if x ≤ i ∧ i < x + w ∧ y ≤ j ∧ j < y + h ∧ i < c.el.width ∧ j < c.el.height then
            cssFillPixel color
          else c.el.pix i j }
    isDisplayDirty := true }

/-- Embedding of `clearRectFromDisplay(x, y, width, height)`:
`ctx.clearRect` sets the covered display pixels to transparent black,
then mark the display dirty. -/
def clearRectFromDisplay (c : Canvasse) (x y w h : Nat) : Canvasse :=
  { c with
    el :=
      { c.el with
        pix := fun i j =>
          if x ≤ i ∧ i < x + w ∧ y ≤ j ∧ j < y + h ∧ i < c.el.width ∧ j < c.el.height then
            Pixel.transparent
          else c.el.pix i j }
    isDisplayDirty := true }

/-- Embedding of `drawTileToBuffer(x, y, color)`:
`bufferCtx.fillRect(x, y, 1, 1)` with the parsed fill style, clipped to
the buffer canvas, then mark the buffer dirty. -/
def drawTileToBuffer (c : Canvasse) (x y : Nat) (color : String) : Canvasse :=
  { c with
    bufferEl :=
      { c.bufferEl with
        pix := fun i j =>
          if i = x ∧ j = y ∧ x < c.bufferEl.width ∧ y < c.bufferEl.height then
            cssFillPixel color
          else c.bufferEl.pix i j }
    isBufferDirty := true }

/-- Embedding of `drawBufferToDisplay()`:
`ctx.drawImage(bufferEl, 0, 0, this.width, this.height)` composites the
buffer canvas source-over onto the display canvas (clipped to both),
then clear the buffer-dirty flag. -/
def drawBufferToDisplay (c : Canvasse) : Canvasse :=
  { c with
    el :=
      { c.el with
        pix := fun i j =>
          if i < c.width ∧ j < c.height ∧ i < c.el.width ∧ j < c.el.height then
            sourceOver (c.bufferEl.pix i j) (c.el.pix i j)
          else c.el.pix i j }
    isBufferDirty := false }

/-- Embedding of `drawDisplayToBuffer()`:
`bufferCtx.drawImage(el, 0, 0, this.width, this.height)` composites the
display canvas source-over onto the buffer canvas (clipped to both),
then clear the display-dirty flag. -/
def drawDisplayToBuffer (c : Canvasse) : Canvasse :=
  { c with
    bufferEl :=
      { c.bufferEl with
        pix := fun i j =>
          if i < c.width ∧ j < c.height ∧ i < c.bufferEl.width ∧ j < c.bufferEl.height then
            sourceOver (c.el.pix i j) (c.bufferEl.pix i j)
          else c.bufferEl.pix i j }
    isDisplayDirty := false }

/-- Embedding of the deprecated `drawTileAt(x, y, color)`: draw to the
buffer and immediately flush the buffer to the display. -/
def drawTileAt (c : Canvasse) (x y : Nat) (color : String) : Canvasse :=
  (c.drawTileToBuffer x y color).drawBufferToDisplay

end Canvasse

/-- One entry of the `state` argument of `writeStateToBuffer`: the
x coordinate, the y coordinate and the hex color string. -/
def PixelState : Type := Nat × Nat × String

/-- The flat index computed in `writeStateToBuffer`:
`i = 4 * (y * width + x)`. -/
def stateIndex (width x y : Nat) : Nat := 4 * (y * width + x)

/-- The length of the allocated pixel byte array in
`writeStateToBuffer`: `4 * width * height`. -/
def pixelDataLength (width height : Nat) : Nat := 4 * width * height

/-- One assignment `pixelData[i] = v` into a `Uint8ClampedArray` of
length `len`: the value is clamped to a byte and the write is silently
dropped when the index is out of range. -/
def writeClamped (len : Nat) (d : Nat → Nat) (i v : Nat) : Nat → Nat :=
  fun j => if i < len ∧ j = i then min v 255 else d j

/-- The body of the `state.forEach` loop of `writeStateToBuffer`: parse
the entry's color and write its four channel bytes at the flat index. -/
def applyPixelState (width len : Nat) (d : Nat → Nat) (ps : PixelState) : Nat → Nat :=
  let x := ps.1
  let y := ps.2.1
  let color := parseHexColor ps.2.2
  let i := stateIndex width x y
  writeClamped len
    (writeClamped len
      (writeClamped len
        (writeClamped len d i color.red)
        (i + 1) color.green)
      (i + 2) color.blue)
    (i + 3) 255

namespace Canvasse

/-- Embedding of `writeStateToBuffer(state)`: allocate a
zero-initialized byte array of length `4 * width * height`, run the
`forEach` loop over the updates, and `putImageData` the result onto the
buffer canvas at the origin (raw replacement of the covered pixels,
clipped to the buffer canvas).  No dirty flag is touched. -/
def writeStateToBuffer (c : Canvasse) (state : List PixelState) : Canvasse :=
  let width := c.width
  let height := c.height
  let len := pixelDataLength width height
  let pixelData := state.foldl (applyPixelState width len) (fun _ => 0)
  { c with
    bufferEl :=
      { c.bufferEl with
        pix := fun x y =>
          if x < width ∧ y < height ∧ x < c.bufferEl.width ∧ y < c.bufferEl.height then
            { r := pixelData (stateIndex width x y)
              g := pixelData (stateIndex width x y + 1)
              b := pixelData (stateIndex width x y + 2)
              a := pixelData (stateIndex width x y + 3) }
          else c.bufferEl.pix x y } }

/-- The surface attributes are consistent with the recorded dimensions,
as `init` makes them. -/
def Initialized (c : Canvasse) : Prop :=
  c.el.width = c.width ∧ c.el.height = c.height ∧
    c.bufferEl.width = c.width ∧ c.bufferEl.height = c.height

instance (c : Canvasse) : Decidable c.Initialized := by
  unfold Initialized; infer_instance

end Canvasse

/-- The color of the last update of a state list that targets the
coordinate `(x, y)`, if any. -/
def lastUpdateAt (state : List PixelState) (x y : Nat) : Option String :=
  ((state.filter (fun p => p.1 == x && p.2.1 == y)).getLast?).map (fun p => p.2.2)

/-- A host canvas element handed to `init`; its contents are irrelevant
because `init` resizes it, which resets it to transparent black. -/
def hostEl : Surface := ⟨0, 0, fun _ _ => Pixel.transparent⟩

/-! ### Utility module -/

/-- Embedding of `bindEvents(target, eventsDict, useCapture)` from
utils.js.  The listener list of the target element is modelled as a
list of (event name, handler, capture flag) registrations that
`addEventListener` appends to.  The dict is a list of
(event name, handler) pairs in enumeration order.  The `useCapture`
argument (`none` models omitting it) is defaulted to `true` and then
never used: the loop registers every handler with the literal `true`. -/
def bindEvents {α : Type} (target : List (String × α × Bool))
    (eventsDict : List (String × α)) (useCapture : Option Bool) :
    List (String × α × Bool) :=
  let _useCapture := useCapture.getD true
  eventsDict.foldl (fun t p => t ++ [(p.1, p.2, true)]) target

/-- A JavaScript object as `hijack` sees it: a table of methods (each
taking an argument list to a result, `none` modelling `undefined`) plus
the special `targetMethod` slot the wrapper installs while running. -/
structure JSObject (V : Type) where
  methods : String → List V → Option V
  targetMethod : Option (List V → Option V)

/-- Embedding of `hijack(target, methodName, fn)` from utils.js: save
the original method, and overwrite it with a function that installs the
original under `targetMethod`, applies `fn` to the object and the
arguments, discards the result, and falls off the end (returning
`undefined`, i.e. `none`). -/
def hijack {V : Type} (target : JSObject V) (methodName : String)
    (fn : JSObject V → List V → Option V) : JSObject V :=
  let targetMethod := target.methods methodName
  { target with
    methods := fun m =>
      if m = methodName then
        fun args =>
          let _res := fn { target with targetMethod := some targetMethod } args
          none
      else target.methods m }

/-! ### Helper lemmas about the byte array of writeStateToBuffer -/

theorem writeClamped_at (len : Nat) (d : Nat → Nat) (i v : Nat) (h : i < len) :
    writeClamped len d i v i = min v 255 := by
  simp [writeClamped, h]

theorem writeClamped_ne (len : Nat) (d : Nat → Nat) (i v j : Nat) (h : j ≠ i) :
    writeClamped len d i v j = d j := by
  simp [writeClamped, h]

theorem parseHexColor_channels_le (s : String) :
    (parseHexColor s).red ≤ 255 ∧ (parseHexColor s).green ≤ 255 ∧
      (parseHexColor s).blue ≤ 255 := by
  unfold parseHexColor
  rcases hp : parseIntHex (s.data.drop 1) with _ | v <;> simp [hp]
  exact ⟨Nat.and_le_right, Nat.and_le_right, Nat.and_le_right⟩

theorem rowcol_lt {w h x y : Nat} (hx : x < w) (hy : y < h) :
    y * w + x < w * h :=
  calc y * w + x < y * w + w := Nat.add_lt_add_left hx _
  _ = (y + 1) * w := (Nat.succ_mul y w).symm
  _ ≤ h * w := Nat.mul_le_mul_right w (Nat.succ_le_of_lt hy)
  _ = w * h := Nat.mul_comm h w

theorem rowcol_inj {w x y x' y' : Nat} (hx : x < w) (hx' : x' < w)
    (h : y * w + x = y' * w + x') : x = x' ∧ y = y' := by
  have hw : 0 < w := Nat.lt_of_le_of_lt (Nat.zero_le x) hx
  have h1 : (y * w + x) % w = x := by
    rw [Nat.mul_comm y w, Nat.mul_add_mod]; exact Nat.mod_eq_of_lt hx
  have h2 : (y' * w + x') % w = x' := by
    rw [Nat.mul_comm y' w, Nat.mul_add_mod]; exact Nat.mod_eq_of_lt hx'
  have hxx : x = x' := by rw [← h1, h, h2]
  subst hxx
  have hyy : y * w = y' * w := Nat.add_right_cancel h
  exact ⟨rfl, Nat.eq_of_mul_eq_mul_right hw hyy⟩

theorem stateIndex_add_three_lt {w h x y : Nat} (hx : x < w) (hy : y < h) :
    stateIndex w x y + 3 < pixelDataLength w h := by
  have hlt := rowcol_lt hx hy
  unfold stateIndex pixelDataLength
  rw [Nat.mul_assoc]
  set a := y * w + x
  set b := w * h
  omega

theorem stateIndex_ne {w x y x' y' : Nat} (hx : x < w) (hx' : x' < w)
    (hne : ¬(x = x' ∧ y = y')) (k k' : Nat) (hk : k < 4) (hk' : k' < 4) :
    stateIndex w x y + k ≠ stateIndex w x' y' + k' := by
  intro he
  apply hne
  unfold stateIndex at he
  have hab : y * w + x = y' * w + x' := by
    set a := y * w + x
    set b := y' * w + x'
    omega
  exact rowcol_inj hx hx' hab

theorem applyPixelState_other (width len : Nat) (d : Nat → Nat) (p : PixelState)
    (j : Nat) (hfar : ∀ k', k' < 4 → j ≠ stateIndex width p.1 p.2.1 + k') :
    applyPixelState width len d p j = d j := by
  have h0 := hfar 0 (by omega)
  have h1 := hfar 1 (by omega)
  have h2 := hfar 2 (by omega)
  have h3 := hfar 3 (by omega)
  rw [Nat.add_zero] at h0
  simp only [applyPixelState, writeClamped]
  rw [if_neg (show ¬(stateIndex width p.1 p.2.1 + 3 < len ∧ j = stateIndex width p.1 p.2.1 + 3)
        from fun hcon => h3 hcon.2),
    if_neg (show ¬(stateIndex width p.1 p.2.1 + 2 < len ∧ j = stateIndex width p.1 p.2.1 + 2)
        from fun hcon => h2 hcon.2),
    if_neg (show ¬(stateIndex width p.1 p.2.1 + 1 < len ∧ j = stateIndex width p.1 p.2.1 + 1)
        from fun hcon => h1 hcon.2),
    if_neg (show ¬(stateIndex width p.1 p.2.1 < len ∧ j = stateIndex width p.1 p.2.1)
        from fun hcon => h0 hcon.2)]

theorem applyPixelState_self (width len : Nat) (d : Nat → Nat) (p : PixelState)
    (hlen : stateIndex width p.1 p.2.1 + 3 < len) :
    applyPixelState width len d p (stateIndex width p.1 p.2.1)
        = (parseHexColor p.2.2).red ∧
      applyPixelState width len d p (stateIndex width p.1 p.2.1 + 1)
        = (parseHexColor p.2.2).green ∧
      applyPixelState width len d p (stateIndex width p.1 p.2.1 + 2)
        = (parseHexColor p.2.2).blue ∧
      applyPixelState width len d p (stateIndex width p.1 p.2.1 + 3) = 255 := by
  obtain ⟨hr, hg, hb⟩ := parseHexColor_channels_le p.2.2
  have hl0 : stateIndex width p.1 p.2.1 < len := by omega
  have hl1 : stateIndex width p.1 p.2.1 + 1 < len := by omega
  have hl2 : stateIndex width p.1 p.2.1 + 2 < len := by omega
  refine ⟨?_, ?_, ?_, ?_⟩
  · simp [applyPixelState, writeClamped, hl0, Nat.min_def, hr]
  · simp [applyPixelState, writeClamped, hl1, Nat.min_def, hg]
  · simp [applyPixelState, writeClamped, hl2, Nat.min_def, hb]
  · simp [applyPixelState, writeClamped, hlen]

theorem lastUpdateAt_append (l : List PixelState) (p : PixelState) (x y : Nat) :
    lastUpdateAt (l ++ [p]) x y =
      if p.1 = x ∧ p.2.1 = y then some p.2.2 else lastUpdateAt l x y := by
  unfold lastUpdateAt
  rw [List.filter_append]
  by_cases hp : p.1 = x ∧ p.2.1 = y
  · rw [if_pos hp]
    have hf : List.filter (fun q => q.1 == x && q.2.1 == y) [p] = [p] := by
      simp [List.filter_singleton, hp.1, hp.2]
    rw [hf, List.getLast?_concat]
    rfl
  · rw [if_neg hp]
    have hb : (p.1 == x && p.2.1 == y) = false := by
      rw [Bool.eq_false_iff]
      intro htrue
      rw [Bool.and_eq_true, beq_iff_eq, beq_iff_eq] at htrue
      exact hp htrue
    have hf : List.filter (fun q => q.1 == x && q.2.1 == y) [p] = [] := by
      simp [List.filter_singleton, hb]
    rw [hf, List.append_nil]

/-- Reading the four channel bytes of an in-range coordinate out of the
pixel byte array built by the forEach loop of `writeStateToBuffer`
yields the parsed color of the last update targeting that coordinate
with alpha byte 255, and all zero bytes when no update targets it. -/
theorem foldl_pixelData_read (w h : Nat) (state : List PixelState)
    (hin : ∀ p ∈ state, p.1 < w ∧ p.2.1 < h)
    (x y : Nat) (hx : x < w) (hy : y < h) :
    (state.foldl (applyPixelState w (pixelDataLength w h)) (fun _ => 0))
        (stateIndex w x y)
        = (match lastUpdateAt state x y with
           | some col => (parseHexColor col).red
           | none => 0) ∧
      (state.foldl (applyPixelState w (pixelDataLength w h)) (fun _ => 0))
        (stateIndex w x y + 1)
        = (match lastUpdateAt state x y with
           | some col => (parseHexColor col).green
           | none => 0) ∧
      (state.foldl (applyPixelState w (pixelDataLength w h)) (fun _ => 0))
        (stateIndex w x y + 2)
        = (match lastUpdateAt state x y with
           | some col => (parseHexColor col).blue
           | none => 0) ∧
      (state.foldl (applyPixelState w (pixelDataLength w h)) (fun _ => 0))
        (stateIndex w x y + 3)
        = (match lastUpdateAt state x y with
           | some _ => 255
           | none => 0) := by
  induction state using List.reverseRecOn with
  | nil => simp [lastUpdateAt]
  | append_singleton l p ih =>
    have hin' : ∀ q ∈ l, q.1 < w ∧ q.2.1 < h :=
      fun q hq => hin q (List.mem_append_left _ hq)
    have hp' : p.1 < w ∧ p.2.1 < h :=
      hin p (List.mem_append_right _ (List.mem_singleton_self p))
    obtain ⟨ih0, ih1, ih2, ih3⟩ := ih hin'
    rw [List.foldl_append]
    simp only [List.foldl_cons, List.foldl_nil]
    rw [lastUpdateAt_append]
    set D := List.foldl (applyPixelState w (pixelDataLength w h)) (fun _ => 0) l with hD
    by_cases hp : p.1 = x ∧ p.2.1 = y
    · rw [if_pos hp]
      have hb3 : stateIndex w p.1 p.2.1 + 3 < pixelDataLength w h :=
        stateIndex_add_three_lt hp'.1 hp'.2
      obtain ⟨e0, e1, e2, e3⟩ :=
        applyPixelState_self w (pixelDataLength w h) D p hb3
      rw [hp.1, hp.2] at e0 e1 e2 e3
      exact ⟨e0, e1, e2, e3⟩
    · rw [if_neg hp]
      have hne : ¬(x = p.1 ∧ y = p.2.1) :=
        fun hcon => hp ⟨hcon.1.symm, hcon.2.symm⟩
      have hfar : ∀ k k' : Nat, k < 4 → k' < 4 →
          stateIndex w x y + k ≠ stateIndex w p.1 p.2.1 + k' :=
        fun k k' hk hk' => stateIndex_ne hx hp'.1 hne k k' hk hk'
      have d0 : applyPixelState w (pixelDataLength w h) D p (stateIndex w x y)
          = D (stateIndex w x y) :=
        applyPixelState_other w (pixelDataLength w h) D p (stateIndex w x y)
          (fun k' hk' => by have := hfar 0 k' (by omega) hk'; omega)
      have d1 : applyPixelState w (pixelDataLength w h) D p (stateIndex w x y + 1)
          = D (stateIndex w x y + 1) :=
        applyPixelState_other w (pixelDataLength w h) D p (stateIndex w x y + 1)
          (fun k' hk' => hfar 1 k' (by omega) hk')
      have d2 : applyPixelState w (pixelDataLength w h) D p (stateIndex w x y + 2)
          = D (stateIndex w x y + 2) :=
        applyPixelState_other w (pixelDataLength w h) D p (stateIndex w x y + 2)
          (fun k' hk' => hfar 2 k' (by omega) hk')
      have d3 : applyPixelState w (pixelDataLength w h) D p (stateIndex w x y + 3)
          = D (stateIndex w x y + 3) :=
        applyPixelState_other w (pixelDataLength w h) D p (stateIndex w x y + 3)
          (fun k' hk' => hfar 3 k' (by omega) hk')
      rw [d0, d1, d2, d3]
      exact ⟨ih0, ih1, ih2, ih3⟩

theorem sourceOver_opaque_src (src dst : Pixel) (h : src.a = 255) :
    sourceOver src dst = src := by
  simp [sourceOver, h]

/-- Claim C1: for every canvas whose buffer matches its recorded
dimensions and every update list whose coordinates are all in range,
after `writeStateToBuffer` the buffer pixel at each in-range coordinate
is the parsed color of the last update targeting it, fully opaque, and
transparent black where no update targets it — independently of the
previous buffer contents (full replacement, last write wins). -/
theorem writeStateToBuffer_lastWriteWins (c : Canvasse) (state : List PixelState)
    (hbw : c.bufferEl.width = c.width) (hbh : c.bufferEl.height = c.height)
    (hin : ∀ p ∈ state, p.1 < c.width ∧ p.2.1 < c.height)
    (x y : Nat) (hx : x < c.width) (hy : y < c.height) :
    (c.writeStateToBuffer state).bufferEl.pix x y =
      match lastUpdateAt state x y with
      | some col => (parseHexColor col).toPixel
      | none => Pixel.transparent := by
  obtain ⟨h0, h1, h2, h3⟩ := foldl_pixelData_read c.width c.height state hin x y hx hy
  have hguard : x < c.width ∧ y < c.height ∧ x < c.bufferEl.width ∧ y < c.bufferEl.height :=
    ⟨hx, hy, by rw [hbw]; exact hx, by rw [hbh]; exact hy⟩
  simp only [Canvasse.writeStateToBuffer]
  rw [if_pos hguard]
  cases hcol : lastUpdateAt state x y with
  | none =>
    rw [hcol] at h0 h1 h2 h3
    simp [h0, h1, h2, h3, Pixel.transparent]
  | some col =>
    rw [hcol] at h0 h1 h2 h3
    simp [h0, h1, h2, h3, Color.toPixel]

/-- Witness for the C1 theorem on a 2×2 canvas: two updates hit (0,0)
and the later green one wins. -/
theorem writeStateToBuffer_lastWriteWins_witness :
    ((Canvasse.init hostEl 2 2).writeStateToBuffer
        [(0, 0, "#ff0000"), (0, 0, "#00ff00"), (1, 1, "#0000ff")]).bufferEl.pix 0 0
      = Pixel.mk 0 255 0 255 := by
  have h := writeStateToBuffer_lastWriteWins (Canvasse.init hostEl 2 2)
    [(0, 0, "#ff0000"), (0, 0, "#00ff00"), (1, 1, "#0000ff")] rfl rfl
    (by
      intro p hp
      simp only [List.mem_cons, List.not_mem_nil, or_false] at hp
      rcases hp with rfl | rfl | rfl <;> exact ⟨by decide, by decide⟩)
    0 0 (by decide) (by decide)
  rw [h]
  decide

/-- Claim C2: on an initialized pair, writing a hex color to the buffer
at an in-range coordinate and then flushing the buffer to the display
makes the display pixel there the parsed color with alpha 255. -/
theorem drawTileToBuffer_then_flush (c : Canvasse) (x y : Nat) (color : String)
    (hinit : c.Initialized) (hx : x < c.width) (hy : y < c.height)
    (hcolor : isHexColor color = true) :
    ((c.drawTileToBuffer x y color).drawBufferToDisplay).el.pix x y =
      (parseHexColor color).toPixel := by
  obtain ⟨hew, heh, hbw, hbh⟩ := hinit
  have hxe : x < c.el.width := by rw [hew]; exact hx
  have hye : y < c.el.height := by rw [heh]; exact hy
  have hxb : x < c.bufferEl.width := by rw [hbw]; exact hx
  have hyb : y < c.bufferEl.height := by rw [hbh]; exact hy
  simp [Canvasse.drawTileToBuffer, Canvasse.drawBufferToDisplay,
    hx, hy, hxe, hye, hxb, hyb, sourceOver, cssFillPixel, Color.toPixel]

/-- Witness for the C2 theorem on a 2×2 canvas. -/
theorem drawTileToBuffer_then_flush_witness :
    (((Canvasse.init hostEl 2 2).drawTileToBuffer 1 0 "#0a1b2c").drawBufferToDisplay).el.pix 1 0
      = (parseHexColor "#0a1b2c").toPixel :=
  drawTileToBuffer_then_flush (Canvasse.init hostEl 2 2) 1 0 "#0a1b2c"
    ⟨rfl, rfl, rfl, rfl⟩ (by decide) (by decide) (by decide)

/-- Counterexample for claim C3 as stated: on a freshly initialized 1×1
pair whose buffer holds one red pixel (the display still transparent),
flushing display to buffer and then buffer to display copies the red
pixel onto the display, changing its contents. -/
theorem roundTrip_changes_transparent_display :
    (((Canvasse.init hostEl 1 1).writeStateToBuffer
        [(0, 0, "#ff0000")]).drawDisplayToBuffer.drawBufferToDisplay).el.pix 0 0
      ≠ ((Canvasse.init hostEl 1 1).writeStateToBuffer [(0, 0, "#ff0000")]).el.pix 0 0 := by
  decide

/-- Claim C3 amended: on an initialized pair whose in-range display
pixels are all fully opaque, `drawDisplayToBuffer` followed by
`drawBufferToDisplay` leaves every display pixel unchanged; with
transparent display pixels over non-blank buffer content the display
can change instead. -/
theorem roundTrip_display_unchanged (c : Canvasse) (hinit : c.Initialized)
    (hop : ∀ x y, x < c.width → y < c.height → (c.el.pix x y).a = 255)
    (x y : Nat) :
    (c.drawDisplayToBuffer.drawBufferToDisplay).el.pix x y = c.el.pix x y := by
  obtain ⟨hew, heh, hbw, hbh⟩ := hinit
  by_cases hxy : x < c.width ∧ y < c.height
  · obtain ⟨hx, hy⟩ := hxy
    have hxe : x < c.el.width := by rw [hew]; exact hx
    have hye : y < c.el.height := by rw [heh]; exact hy
    have hxb : x < c.bufferEl.width := by rw [hbw]; exact hx
    have hyb : y < c.bufferEl.height := by rw [hbh]; exact hy
    have ha := hop x y hx hy
    simp [Canvasse.drawDisplayToBuffer, Canvasse.drawBufferToDisplay,
      hx, hy, hxe, hye, hxb, hyb, sourceOver_opaque_src, ha]
  · have hcond : ¬(x < c.width ∧ y < c.height ∧ x < c.el.width ∧ y < c.el.height) :=
      fun hcon => hxy ⟨hcon.1, hcon.2.1⟩
    simp only [Canvasse.drawDisplayToBuffer, Canvasse.drawBufferToDisplay]
    rw [if_neg hcond]

/-- Witness for the amended C3 theorem: a 1×1 pair whose display pixel
was made opaque by a display draw survives the round trip unchanged. -/
theorem roundTrip_display_unchanged_witness :
    ((((Canvasse.init hostEl 1 1).drawTileToDisplay 0 0
        "#112233")).drawDisplayToBuffer.drawBufferToDisplay).el.pix 0 0
      = ((Canvasse.init hostEl 1 1).drawTileToDisplay 0 0 "#112233").el.pix 0 0 :=
  roundTrip_display_unchanged
    ((Canvasse.init hostEl 1 1).drawTileToDisplay 0 0 "#112233")
    ⟨rfl, rfl, rfl, rfl⟩
    (by
      intro x y hx hy
      have hx1 : x < 1 := hx
      have hy1 : y < 1 := hy
      have hx0 : x = 0 := by omega
      have hy0 : y = 0 := by omega
      subst hx0
      subst hy0
      decide)
    0 0

/-- Claim C4: the deprecated `drawTileAt` produces exactly the state of
`drawTileToBuffer` followed by `drawBufferToDisplay` — both surfaces
and both dirty flags included. -/
theorem drawTileAt_eq_buffer_then_flush (c : Canvasse) (x y : Nat) (color : String) :
    c.drawTileAt x y color = (c.drawTileToBuffer x y color).drawBufferToDisplay := rfl

/-- One call of a canvasse module operation, as a step relation on
module states. -/
inductive CanvasseStep : Canvasse → Canvasse → Prop where
  | tileToDisplay (c : Canvasse) (x y : Nat) (color : String) :
      CanvasseStep c (c.drawTileToDisplay x y color)
  | rectToDisplay (c : Canvasse) (x y w h : Nat) (color : String) :
      CanvasseStep c (c.drawRectToDisplay x y w h color)
  | clearRect (c : Canvasse) (x y w h : Nat) :
      CanvasseStep c (c.clearRectFromDisplay x y w h)
  | tileToBuffer (c : Canvasse) (x y : Nat) (color : String) :
      CanvasseStep c (c.drawTileToBuffer x y color)
  | bufferToDisplay (c : Canvasse) : CanvasseStep c c.drawBufferToDisplay
  | displayToBuffer (c : Canvasse) : CanvasseStep c c.drawDisplayToBuffer
  | tileAt (c : Canvasse) (x y : Nat) (color : String) :
      CanvasseStep c (c.drawTileAt x y color)
  | stateToBuffer (c : Canvasse) (state : List PixelState) :
      CanvasseStep c (c.writeStateToBuffer state)

/-- Display and buffer surfaces carry the same dimension attributes. -/
def dimsEq (c : Canvasse) : Prop :=
  c.el.width = c.bufferEl.width ∧ c.el.height = c.bufferEl.height

/-- Claim C5: `init` makes display and buffer surfaces both
width×height, and every module operation preserves the equality of the
two surfaces' dimensions. -/
theorem init_establishes_and_steps_preserve_dimsEq :
    (∀ (el : Surface) (w h : Nat),
      (Canvasse.init el w h).el.width = w ∧ (Canvasse.init el w h).el.height = h ∧
        dimsEq (Canvasse.init el w h)) ∧
      ∀ c c' : Canvasse, CanvasseStep c c' → dimsEq c → dimsEq c' := by
  constructor
  · exact fun el w h => ⟨rfl, rfl, rfl, rfl⟩
  · intro c c' hstep hd
    cases hstep <;> exact hd

/-- Witness for the C5 theorem: dimensions stay equal after a buffer
write on a freshly initialized 2×3 pair. -/
theorem dimsEq_after_step_witness :
    dimsEq ((Canvasse.init hostEl 2 3).drawTileToBuffer 1 1 "#abcdef") :=
  init_establishes_and_steps_preserve_dimsEq.2 (Canvasse.init hostEl 2 3) _
    (CanvasseStep.tileToBuffer (Canvasse.init hostEl 2 3) 1 1 "#abcdef")
    (init_establishes_and_steps_preserve_dimsEq.1 hostEl 2 3).2.2

/-- Counterexample for claim C6 as stated: `init` with zero dimensions
does not reject; it constructs a fully determined pair on which the
module operations keep working (a buffer write still sets the dirty
flag). -/
theorem init_zero_size_constructs :
    (Canvasse.init hostEl 0 0).width = 0 ∧
      (Canvasse.init hostEl 0 0).height = 0 ∧
      (Canvasse.init hostEl 0 0).el.width = 0 ∧
      (Canvasse.init hostEl 0 0).bufferEl.width = 0 ∧
      (Canvasse.init hostEl 0 0).isBufferDirty = false ∧
      ((Canvasse.init hostEl 0 0).drawTileToBuffer 0 0 "#ffffff").isBufferDirty = true := by
  decide

/-- Claim C6 amended: `init` performs no validation of its dimensions:
every call, zero sizes included, succeeds and constructs a pair with
exactly the requested dimensions, consistent surface attributes and
clear dirty flags; no configuration error exists in the code. -/
theorem init_performs_no_validation (el : Surface) (width height : Nat) :
    (Canvasse.init el width height).width = width ∧
      (Canvasse.init el width height).height = height ∧
      (Canvasse.init el width height).Initialized ∧
      (Canvasse.init el width height).isBufferDirty = false ∧
      (Canvasse.init el width height).isDisplayDirty = false :=
  ⟨rfl, rfl, ⟨rfl, rfl, rfl, rfl⟩, rfl, rfl⟩

/-- Counterexample for claim C7 as stated: on a 2×2 canvas the
out-of-range coordinate (2, 0) yields flat index 8, inside the
allocated range [0, 16); materializing that single update silently
colors the in-range pixel (0, 1) instead of indexing out of bounds. -/
theorem stateIndex_wraps_into_range :
    ¬(2 < 2 ∧ 0 < 2) ∧ stateIndex 2 2 0 < pixelDataLength 2 2 ∧
      ((Canvasse.init hostEl 2 2).writeStateToBuffer
          [(2, 0, "#ff0000")]).bufferEl.pix 0 1 = Pixel.mk 255 0 0 255 := by
  decide

/-- Claim C7 amended: the flat index of `writeStateToBuffer` is outside
the allocated byte range exactly when the row-major cell number
`y*width + x` is at least `width*height`; a y at or beyond the height
always lands out of bounds, while an x beyond the width with a small
enough y wraps onto a later in-range pixel. -/
theorem stateIndex_oob_iff (w h x y : Nat) :
    (pixelDataLength w h ≤ stateIndex w x y ↔ w * h ≤ y * w + x) ∧
      (h ≤ y → pixelDataLength w h ≤ stateIndex w x y) := by
  unfold stateIndex pixelDataLength
  rw [Nat.mul_assoc]
  constructor
  · set a := y * w + x
    set b := w * h
    omega
  · intro hy
    have hmul : h * w ≤ y * w := Nat.mul_le_mul_right w hy
    rw [Nat.mul_comm w h]
    set u := y * w
    set v := h * w
    omega

/-- Witness for the amended C7 theorem: y = 5 on a 2×2 canvas indexes
out of bounds. -/
theorem stateIndex_oob_iff_witness :
    pixelDataLength 2 2 ≤ stateIndex 2 0 5 :=
  (stateIndex_oob_iff 2 2 0 5).2 (by decide)

/-- Claim C8: `writeStateToBuffer` modifies only the buffer pixel
contents: the display surface, the recorded dimensions, the buffer
surface's dimension attributes, and both dirty flags — the buffer-dirty
flag included — are exactly those of the input state. -/
theorem writeStateToBuffer_frame (c : Canvasse) (state : List PixelState) :
    (c.writeStateToBuffer state).el = c.el ∧
      (c.writeStateToBuffer state).width = c.width ∧
      (c.writeStateToBuffer state).height = c.height ∧
      (c.writeStateToBuffer state).isBufferDirty = c.isBufferDirty ∧
      (c.writeStateToBuffer state).isDisplayDirty = c.isDisplayDirty ∧
      (c.writeStateToBuffer state).bufferEl.width = c.bufferEl.width ∧
      (c.writeStateToBuffer state).bufferEl.height = c.bufferEl.height :=
  ⟨rfl, rfl, rfl, rfl, rfl, rfl, rfl⟩

theorem bindEvents_foldl_eq {α : Type} (eventsDict : List (String × α))
    (target : List (String × α × Bool)) :
    eventsDict.foldl (fun t p => t ++ [(p.1, p.2, true)]) target
      = target ++ eventsDict.map (fun p => (p.1, p.2, true)) := by
  induction eventsDict generalizing target with
  | nil => simp
  | cons p ps ih => simp [ih]

/-- Claim C9: `bindEvents` registers every handler of the dict, in
order, with the capture flag hard-coded to `true`; the `useCapture`
argument (given or omitted) has no effect on the result. -/
theorem bindEvents_always_captures {α : Type} (target : List (String × α × Bool))
    (eventsDict : List (String × α)) (useCapture useCapture' : Option Bool) :
    bindEvents target eventsDict useCapture
        = target ++ eventsDict.map (fun p => (p.1, p.2, true)) ∧
      bindEvents target eventsDict useCapture
        = bindEvents target eventsDict useCapture' :=
  ⟨bindEvents_foldl_eq eventsDict target, rfl⟩

/-- Claim C10: after `hijack`, invoking the replacement method always
returns `undefined` — the result of the wrapper `fn` is computed into a
dead local and discarded, whatever `fn` and the arguments are. -/
theorem hijack_returns_undefined {V : Type} (target : JSObject V)
    (methodName : String) (fn : JSObject V → List V → Option V) (args : List V) :
    (hijack target methodName fn).methods methodName args = none := by
  simp [hijack]
